import Mathlib

/-!
Shallow embedding of the core of amazonbot.py (Amazon job watcher):
text normalisation, keyword matching, job-record extraction and dedupe
identity, selector probing, the apply-click fallback chain, the candidate
loop of the watcher, the seen-identity set update, the oversized-fallback
cap, and the error-backoff scheduler.

Strings are modelled as lists of characters; Python str.lower is Char.toLower
mapped over the list, and Python substring containment (the in operator) is
contiguous-sublist containment.
-/

namespace AmazonBot

/-- Python whitespace class, as used by str.strip and the regex class \s:
space, tab, newline, carriage return, vertical tab, form feed. -/
def isPySpace (c : Char) : Bool :=
  c = ' ' || c = '\t' || c = '\n' || c = '\r' || c = '\x0b' || c = '\x0c'

/-- Auxiliary for collapseWS: the Bool records whether the previous character
was whitespace (so the current run has already emitted its single space). -/
def collapseWSAux : Bool → List Char → List Char
  | _, [] => []
  | prevSpace, c :: rest =>
    if isPySpace c then
      if prevSpace then collapseWSAux true rest
      else ' ' :: collapseWSAux true rest
    else c :: collapseWSAux false rest

/-- re.sub of one or more whitespace characters by a single space:
every maximal whitespace run becomes one space character. -/
def collapseWS (l : List Char) : List Char :=
  collapseWSAux false l

/-- Python str.strip: drop leading and trailing whitespace characters. -/
def stripL (l : List Char) : List Char :=
  (((l.dropWhile isPySpace).reverse).dropWhile isPySpace).reverse

/-- Python str.lower, characterwise. -/
def lowerL (l : List Char) : List Char :=
  l.map Char.toLower

/-- clean_text in amazonbot.py: collapse whitespace runs of (s or "") to a
single space, then strip; an absent input yields the empty string. -/
def cleanText (s : Option (List Char)) : List Char :=
  stripL (collapseWS (s.getD []))

/-- Python substring containment: needle in hay, for strings. -/
def hasSub (needle hay : List Char) : Bool :=
  decide (needle <:+: hay)

/-- text_matches in amazonbot.py. Both keyword gates lower the text once;
each keyword is stripped and lowered before the containment test. -/
def text_matches (text : List Char)
    (include_keywords exclude_keywords : List (List Char)) : Bool :=
  let lower := lowerL text
  if !include_keywords.isEmpty &&
      !(include_keywords.any fun k => hasSub (lowerL (stripL k)) lower) then
    false
  else if !exclude_keywords.isEmpty &&
      (exclude_keywords.any fun x => hasSub (lowerL (stripL x)) lower) then
    false
  else
    true

/-- Dedupe identity built in extract_job_items: lowercase of the first 180
characters of the text, a separator, and the href (or empty). -/
def jobId (txt : List Char) (href : Option (List Char)) : List Char :=
  lowerL (txt.take 180 ++ [' ', '|', ' '] ++ href.getD [])

/-- One DOM element matched by the job-card selector, as the extractor sees
it: its raw text content (text_content may be absent), the href of its first
descendant link if any, and whether extraction of this element raises. -/
structure RawCard where
  textContent : Option (List Char)
  linkHref : Option (List Char)
  extractionFails : Bool
  deriving DecidableEq

/-- A structured job record as built by extract_job_items. -/
structure JobRecord where
  text : List Char
  href : Option (List Char)
  id : List Char
  deriving DecidableEq

/-- The per-card body of extract_job_items: none when the card raised
(the element is skipped), otherwise the record with its dedupe identity. -/
def jobRecordOfCard (c : RawCard) : Option JobRecord :=
  if c.extractionFails then none
  else
    let txt := cleanText c.textContent
    some { text := txt, href := c.linkHref, id := jobId txt c.linkHref }

/-- extract_job_items in amazonbot.py: per-card extraction, errors on an
individual element skip that element only. -/
def extract_job_items (cards : List RawCard) : List JobRecord :=
  cards.filterMap jobRecordOfCard

/-- The selector strings of amazonbot.py, as opaque identifiers. The program
looks only at their identity and their order, never inside the string. In
source order of JOB_CARD_SELECTORS: a data-testid containing job, a
data-test containing job, a div with class containing job and a link, a div
with class containing tile and a link, a li with a link, an article with a
link, a div with an Apply text inside. anchorAll is the bare anchor query a
used as the worst-case fallback in run_watcher. -/
inductive Selector where
  | dataTestidJob
  | dataTestJob
  | divClassJob
  | divClassTile
  | liHasA
  | articleHasA
  | divHasApply
  | anchorAll
  deriving DecidableEq

/-- JOB_CARD_SELECTORS, in the priority order of the source list. -/
def JOB_CARD_SELECTORS : List Selector :=
  [Selector.dataTestidJob, Selector.dataTestJob, Selector.divClassJob,
   Selector.divClassTile, Selector.liHasA, Selector.articleHasA,
   Selector.divHasApply]

/-- One DOM element as the prober sees it: its raw text content and whether
it has at least one descendant link (query_selector of a succeeds). -/
structure Elem where
  textContent : Option (List Char)
  hasLink : Bool
  deriving DecidableEq

/-- The sanity test applied to a sampled element in
pick_working_job_selector: normalized text of length at least 5 and a
descendant link. -/
def elemGood (e : Elem) : Bool :=
  decide (5 ≤ (cleanText e.textContent).length) && e.hasLink

/-- One iteration of the candidate loop of pick_working_job_selector:
skip when the selector matches nothing, accept when at least 1 of the first
8 matches passes the sanity test, otherwise move on. -/
def probeSelector (query : Selector → List Elem) (sel : Selector) :
    Option Selector :=
  let handles := query sel
  if handles.length = 0 then none
  else if 1 ≤ (handles.take 8).countP elemGood then some sel
  else none

/-- pick_working_job_selector in amazonbot.py: first candidate that probes
successfully, none when all candidates fail. -/
def pick_working_job_selector (query : Selector → List Elem) :
    Option Selector :=
  JOB_CARD_SELECTORS.findSome? (probeSelector query)

/-- Whether a candidate selector qualifies: it matches at least one element
and at least 1 of the first 8 matched elements passes the sanity test. -/
def selectorAccepts (query : Selector → List Elem) (sel : Selector) : Bool :=
  !(query sel).isEmpty && decide (1 ≤ ((query sel).take 8).countP elemGood)

/-- The fallback in run_watcher when probing found nothing: the bare anchor
query a. -/
def fallbackSelector (picked : Option Selector) : Selector :=
  match picked with
  | some s => s
  | none => Selector.anchorAll

/-- The oversized-fallback cap in run_watcher: when the worst-case anchor
selector is in use and more than 500 items came back, keep the first 500. -/
def capItems (job_card_selector : Selector) (items : List JobRecord) :
    List JobRecord :=
  if job_card_selector = Selector.anchorAll ∧ 500 < items.length then
    items.take 500
  else items

/-- Observable interaction events of one candidate-loop pass, in program
order: a notification, a click on an apply target found by an in-card
selector, an in-card role-based click (button or link), a same-tab
navigation to a href, a click on the card container itself, a detail-view
query_selector probe, a click on its result, a detail-view role-based
click, the detail-view last-resort text click, and the navigate-back step
after a successful click in keep-running mode. -/
inductive Ev where
  | notifyEv
  | cardSelClick (i : Nat)
  | cardRoleButtonClick
  | cardRoleLinkClick
  | gotoHref (h : List Char)
  | containerClick
  | detailQuery (i : Nat)
  | detailSelClick (i : Nat)
  | detailRoleButtonClick
  | detailRoleLinkClick
  | detailTextClick
  | wentBack
  deriving DecidableEq

/-- Events belonging to the detail-view apply search
(try_click_apply_on_detail). -/
def isDetailEv : Ev → Bool
  | Ev.detailQuery _ => true
  | Ev.detailSelClick _ => true
  | Ev.detailRoleButtonClick => true
  | Ev.detailRoleLinkClick => true
  | Ev.detailTextClick => true
  | _ => false

/-- Same-tab navigation events (gotoHref), of any target. -/
def isGotoEv : Ev → Bool
  | Ev.gotoHref _ => true
  | _ => false

/-- Click operations: in-card clicks, container click, navigation to a
href, and detail-view clicks. Notifications, detail-view queries that only
probe, and the navigate-back step are not clicks. -/
def isClickEv : Ev → Bool
  | Ev.cardSelClick _ => true
  | Ev.cardRoleButtonClick => true
  | Ev.cardRoleLinkClick => true
  | Ev.gotoHref _ => true
  | Ev.containerClick => true
  | Ev.detailSelClick _ => true
  | Ev.detailRoleButtonClick => true
  | Ev.detailRoleLinkClick => true
  | Ev.detailTextClick => true
  | _ => false

/-- Index list of APPLY_WITHIN_CARD_SELECTORS: six selectors, in source
order: a with text Apply, a with text Apply Now, button with text Apply,
button with text Apply Now, a with href containing apply, button with
data-cta containing apply. -/
def APPLY_WITHIN_CARD_SELECTORS : List Nat :=
  [0, 1, 2, 3, 4, 5]

/-- Index list of DETAIL_APPLY_SELECTORS: six selectors, in source order:
a with text Apply, a with text Apply Now, button with text Apply, button
with text Apply Now, data-testid containing apply, a with href containing
apply. -/
def DETAIL_APPLY_SELECTORS : List Nat :=
  [0, 1, 2, 3, 4, 5]

/-- Oracle for the DOM state seen by try_click_apply_within_card on one
card: whether the query for the i-th in-card selector returns a target
(false also covers a raising query), whether the click on that target runs
without raising, and whether the two role-based attempts succeed. -/
structure CardOracle where
  find : Nat → Bool
  clickOk : Nat → Bool
  roleButtonOk : Bool
  roleLinkOk : Bool

/-- The selector loop of try_click_apply_within_card: each found target is
clicked; a raising click is swallowed and the loop continues. -/
def inCardChain (o : CardOracle) : List Nat → List Ev × Bool
  | [] => ([], false)
  | i :: rest =>
    if o.find i then
      if o.clickOk i then ([Ev.cardSelClick i], true)
      else
        let r := inCardChain o rest
        (Ev.cardSelClick i :: r.1, r.2)
    else inCardChain o rest

/-- try_click_apply_within_card in amazonbot.py: the in-card selector loop,
then the role-based button attempt, then the role-based link attempt. -/
def try_click_apply_within_card (o : CardOracle) : List Ev × Bool :=
  let r := inCardChain o APPLY_WITHIN_CARD_SELECTORS
  if r.2 then r
  else if o.roleButtonOk then (r.1 ++ [Ev.cardRoleButtonClick], true)
  else if o.roleLinkOk then (r.1 ++ [Ev.cardRoleLinkClick], true)
  else (r.1, false)

/-- Oracle for the DOM state seen by try_click_apply_on_detail: per-selector
query result and click outcome, the two role-based attempts, and the
last-resort text query (element found, click runs without raising). -/
structure DetailOracle where
  find : Nat → Bool
  clickOk : Nat → Bool
  roleButtonOk : Bool
  roleLinkOk : Bool
  textFind : Bool
  textClickOk : Bool

/-- The selector loop of try_click_apply_on_detail: every iteration issues
a query; a found element is clicked, a raising click is swallowed. -/
def detailChain (o : DetailOracle) : List Nat → List Ev × Bool
  | [] => ([], false)
  | i :: rest =>
    if o.find i then
      if o.clickOk i then ([Ev.detailQuery i, Ev.detailSelClick i], true)
      else
        let r := detailChain o rest
        (Ev.detailQuery i :: Ev.detailSelClick i :: r.1, r.2)
    else
      let r := detailChain o rest
      (Ev.detailQuery i :: r.1, r.2)

/-- try_click_apply_on_detail in amazonbot.py: the detail selector loop,
then role-based button and link attempts, then the last-resort click on any
element with visible text Apply. -/
def try_click_apply_on_detail (o : DetailOracle) : List Ev × Bool :=
  let r := detailChain o DETAIL_APPLY_SELECTORS
  if r.2 then r
  else if o.roleButtonOk then (r.1 ++ [Ev.detailRoleButtonClick], true)
  else if o.roleLinkOk then (r.1 ++ [Ev.detailRoleLinkClick], true)
  else if o.textFind then (r.1 ++ [Ev.detailTextClick], o.textClickOk)
  else (r.1, false)

/-- Oracle for the interactions available while acting on one matched
record: its card and the detail view reached from it. -/
structure ItemOracle where
  card : CardOracle
  detail : DetailOracle

/-- Configuration of run_watcher relevant to the candidate loop. -/
structure WatchCfg where
  include_keywords : List (List Char)
  exclude_keywords : List (List Char)
  dry_run : Bool
  keep_running : Bool
  notify_on_match : Bool

/-- The act-on-match block of run_watcher (non-dry-run): try the in-card
chain; on failure the branch on the Python truthiness of the href — absent
or empty-string hrefs are falsy — either navigates same-tab to the href or
clicks the container element itself, then runs the detail chain; on a
successful click notify and either terminate or navigate back to keep
watching. Returns the event trace and whether the loop returns. -/
def actOnItem (cfg : WatchCfg) (o : ItemOracle) (it : JobRecord) :
    List Ev × Bool :=
  let c := try_click_apply_within_card o.card
  let afterFallback :=
    if c.2 then c
    else
      let nav := match it.href with
        | some h => if h.isEmpty then Ev.containerClick else Ev.gotoHref h
        | none => Ev.containerClick
      let d := try_click_apply_on_detail o.detail
      (c.1 ++ nav :: d.1, d.2)
  if afterFallback.2 then
    let evs := afterFallback.1 ++
      (if cfg.notify_on_match then [Ev.notifyEv] else [])
    if cfg.keep_running then (evs ++ [Ev.wentBack], false)
    else (evs, true)
  else (afterFallback.1, false)

/-- One candidate of the for-loop over candidates in run_watcher: skip
records with empty text, apply the keyword matcher, then either the dry-run
branch or the apply-click strategy. Returns the event trace of this
candidate and whether the loop returns (terminating the watcher). -/
def stepCandidate (cfg : WatchCfg) (o : ItemOracle) (it : JobRecord) :
    List Ev × Bool :=
  if it.text.isEmpty then ([], false)
  else if text_matches it.text cfg.include_keywords cfg.exclude_keywords then
    let matchEvs := if cfg.notify_on_match then [Ev.notifyEv] else []
    if cfg.dry_run then
      if cfg.keep_running then (matchEvs, false) else (matchEvs, true)
    else
      let a := actOnItem cfg o it
      (matchEvs ++ a.1, a.2)
  else ([], false)

/-- The candidate for-loop of run_watcher over one scan cycle: process
candidates in order, stopping when a candidate terminates the watcher. -/
def processCandidates (cfg : WatchCfg) (oracle : JobRecord → ItemOracle) :
    List JobRecord → List Ev × Bool
  | [] => ([], false)
  | it :: rest =>
    let s := stepCandidate cfg (oracle it) it
    if s.2 then s
    else
      let r := processCandidates cfg oracle rest
      (s.1 ++ r.1, r.2)

/-- new_items in run_watcher: the extracted items whose identity is not yet
in the seen set. -/
def newItems (seen : List (List Char)) (items : List JobRecord) :
    List JobRecord :=
  items.filter fun it => decide (it.id ∉ seen)

/-- The seen-set update of run_watcher: add the identities of the new
items. -/
def updateSeen (seen : List (List Char)) (items : List JobRecord) :
    List (List Char) :=
  seen ++ (newItems seen items).map (fun it => it.id)

/-- candidates in run_watcher: Python new_items or items — the new items
when there are any, else all currently extracted items. -/
def candidateSet (seen : List (List Char)) (items : List JobRecord) :
    List JobRecord :=
  if (newItems seen items).isEmpty then items else newItems seen items

/-- Initial backoff of run_watcher in seconds. -/
def backoffInit : Nat := 5

/-- Backoff update after an error cycle: double, capped at 120 seconds. -/
def backoffNext (b : Nat) : Nat :=
  min (b * 2) 120

/-- The scheduler of run_watcher over a sequence of cycle outcomes (true
means the cycle completed without error). An error cycle sleeps the current
backoff and doubles it (capped); an error-free cycle resets the backoff to
its initial value. Returns the list of cooldown waits and the final
backoff. -/
def runBackoff : Nat → List Bool → List Nat × Nat
  | b, [] => ([], b)
  | b, ok :: rest =>
    if ok then runBackoff backoffInit rest
    else
      let r := runBackoff (backoffNext b) rest
      (b :: r.1, r.2)

/-! Concrete fixtures used by witnesses and counterexamples. -/

/-- A sampled element passing the prober sanity test. -/
def probeGoodElem : Elem :=
  { textContent := some ['h', 'e', 'l', 'l', 'o'], hasLink := true }

/-- A sampled element failing the prober sanity test. -/
def probeBadElem : Elem :=
  { textContent := none, hasLink := false }

/-- Example page for the probing scenario: the first three candidate
selectors match nothing, the fourth matches ten elements of which exactly
three pass the sanity test, later candidates match nothing. -/
def probeExampleQuery : Selector → List Elem
  | Selector.divClassTile =>
    [probeGoodElem, probeBadElem, probeGoodElem, probeBadElem, probeBadElem,
     probeGoodElem, probeBadElem, probeBadElem, probeBadElem, probeBadElem]
  | _ => []

/-- Dry-run configuration with empty keyword lists, keep-running off and
notifications off. -/
def dryCfg : WatchCfg :=
  { include_keywords := [], exclude_keywords := [], dry_run := true,
    keep_running := false, notify_on_match := false }

/-- A card on which every apply attempt fails. -/
def trivialCardOracle : CardOracle :=
  { find := fun _ => false, clickOk := fun _ => false,
    roleButtonOk := false, roleLinkOk := false }

/-- A detail view on which every apply attempt fails. -/
def trivialDetailOracle : DetailOracle :=
  { find := fun _ => false, clickOk := fun _ => false,
    roleButtonOk := false, roleLinkOk := false,
    textFind := false, textClickOk := false }

/-- An item environment on which every apply attempt fails. -/
def trivialItemOracle : ItemOracle :=
  { card := trivialCardOracle, detail := trivialDetailOracle }

/-- An extracted record whose normalized text is empty. -/
def emptyTextRecord : JobRecord :=
  { text := [], href := none, id := jobId [] none }

/-- An extracted record with non-empty text and no link. -/
def pickerRecord : JobRecord :=
  { text := ['p'], href := none, id := jobId ['p'] none }

/-- An extracted record with non-empty text and a link. -/
def hrefRecord : JobRecord :=
  { text := ['p'], href := some ['u'], id := jobId ['p'] (some ['u']) }

/-- An extracted record whose link has an empty-string href, as produced by
an anchor with an empty href attribute. -/
def emptyHrefRecord : JobRecord :=
  { text := ['p'], href := some [], id := jobId ['p'] (some []) }

/-! Helper lemmas. -/

lemma hasSub_iff (n h : List Char) : hasSub n h = true ↔ n <:+: h := by
  simp [hasSub]

lemma stripL_sub (l : List Char) : stripL l <:+: l := by
  have hm : l.dropWhile isPySpace <:+ l := List.dropWhile_suffix _
  have h2 : (l.dropWhile isPySpace).reverse.dropWhile isPySpace <:+
      (l.dropWhile isPySpace).reverse := List.dropWhile_suffix _
  have h3 : stripL l <+: l.dropWhile isPySpace := by
    have h4 := List.reverse_prefix.mpr h2
    rwa [List.reverse_reverse] at h4
  exact List.infix_iff_prefix_suffix.mpr ⟨l.dropWhile isPySpace, h3, hm⟩

lemma infixMap (f : Char → Char) {a b : List Char} (h : a <:+: b) :
    a.map f <:+: b.map f := by
  obtain ⟨s, t, rfl⟩ := h
  exact ⟨s.map f, t.map f, by simp⟩

lemma text_matches_eq (T : List Char) (inc exc : List (List Char)) :
    text_matches T inc exc =
      ((inc.isEmpty || inc.any fun k => hasSub (lowerL (stripL k)) (lowerL T)) &&
       (exc.isEmpty || !(exc.any fun x => hasSub (lowerL (stripL x)) (lowerL T)))) := by
  simp only [text_matches]
  cases h1 : inc.isEmpty <;>
    cases h2 : (inc.any fun k => hasSub (lowerL (stripL k)) (lowerL T)) <;>
      cases h3 : exc.isEmpty <;>
        cases h4 : (exc.any fun x => hasSub (lowerL (stripL x)) (lowerL T)) <;>
          simp [h1, h2, h3, h4]

lemma extract_id (cs : List RawCard) (r : JobRecord)
    (h : r ∈ extract_job_items cs) : r.id = jobId r.text r.href := by
  rw [extract_job_items, List.mem_filterMap] at h
  obtain ⟨c, _, hc⟩ := h
  unfold jobRecordOfCard at hc
  by_cases hf : c.extractionFails
  · simp [hf] at hc
  · simp [hf] at hc
    rw [← hc]

/-! Claim theorems. -/

/-- Claim C1 (amended): with an empty include list any text passes the
include gate (it can only be rejected by the exclude gate); with a
non-empty include list, text_matches is true only if the text contains,
case-insensitively, at least one include keyword after that keyword is
stripped of surrounding whitespace; and text_matches T [] [] is true for
every T. -/
theorem include_gate_spec (T : List Char) (inc exc : List (List Char)) :
    ((∀ x ∈ exc, hasSub (lowerL (stripL x)) (lowerL T) = false) →
      text_matches T [] exc = true) ∧
    (inc ≠ [] → text_matches T inc exc = true →
      ∃ k ∈ inc, hasSub (lowerL (stripL k)) (lowerL T) = true) ∧
    text_matches T [] [] = true := by
  refine ⟨?_, ?_, ?_⟩
  · intro hall
    have hany : (exc.any fun x => hasSub (lowerL (stripL x)) (lowerL T)) = false := by
      rw [Bool.eq_false_iff]
      intro hsome
      obtain ⟨x, hx, hpx⟩ := List.any_eq_true.mp hsome
      rw [hall x hx] at hpx
      cases hpx
    rw [text_matches_eq]
    simp [hany]
  · intro hne hm
    rw [text_matches_eq] at hm
    have hie : inc.isEmpty = false := by
      cases inc with
      | nil => exact absurd rfl hne
      | cons a l => rfl
    rw [hie] at hm
    have hany : (inc.any fun k => hasSub (lowerL (stripL k)) (lowerL T)) = true := by
      cases h : (inc.any fun k => hasSub (lowerL (stripL k)) (lowerL T)) with
      | true => rfl
      | false => rw [h] at hm; cases hm
    exact List.any_eq_true.mp hany
  · rw [text_matches_eq]
    rfl

/-- Claim C1 witness: a concrete text passing with an empty include list,
and a concrete non-empty include list whose accepted text does contain an
include keyword. -/
theorem include_gate_spec_w :
    text_matches ['a'] [] [['z']] = true ∧
    ∃ k ∈ [['a']], hasSub (lowerL (stripL k)) (lowerL ['a']) = true :=
  ⟨(include_gate_spec ['a'] [] [['z']]).1 (by decide),
   (include_gate_spec ['a'] [['a']] []).2.1 (by decide) (by decide)⟩

/-- Claim C1 counterexample: with the include keyword consisting of a space
followed by the letter a, the text a is accepted by text_matches although
the keyword is not a case-insensitive substring of the text — the code
strips each keyword before the containment test, which the claim as stated
does not allow for. -/
theorem include_gate_ce :
    text_matches ['a'] [[' ', 'a']] [] = true ∧
    hasSub (lowerL [' ', 'a']) (lowerL ['a']) = false := by
  decide

/-- Claim C2: if any exclude keyword is a case-insensitive substring of the
text, text_matches is false regardless of the include list. Stripping the
keyword only shrinks it, so the stripped keyword is still a substring. -/
theorem exclude_keyword_rejects (T : List Char) (inc exc : List (List Char))
    (x : List Char) (hx : x ∈ exc)
    (hsub : hasSub (lowerL x) (lowerL T) = true) :
    text_matches T inc exc = false := by
  have hxe : exc.isEmpty = false := by
    cases exc with
    | nil => cases hx
    | cons a l => rfl
  have hstrip : hasSub (lowerL (stripL x)) (lowerL T) = true := by
    rw [hasSub_iff] at hsub ⊢
    exact (infixMap Char.toLower (stripL_sub x)).trans hsub
  have hany : (exc.any fun k => hasSub (lowerL (stripL k)) (lowerL T)) = true :=
    List.any_eq_true.mpr ⟨x, hx, hstrip⟩
  rw [text_matches_eq, hxe, hany]
  simp

/-- Claim C2 witness: the text bad is rejected when the exclude list
contains the keyword b, whatever the include list. -/
theorem exclude_keyword_rejects_w :
    text_matches ['b', 'a', 'd'] [['b', 'a', 'd']] [['b']] = false :=
  exclude_keyword_rejects ['b', 'a', 'd'] [['b', 'a', 'd']] [['b']] ['b']
    (by decide) (by decide)

/-- Claim C3 (amended): two extracted records with the same normalized text
and the same href have the same dedupe identity, and two records with
different identities differ in text or href; but differing text or href
does not force differing identities (see the counterexample: texts that
differ only in letter case collide). -/
theorem dedupe_identity_spec (cs₁ cs₂ : List RawCard) (r₁ r₂ : JobRecord)
    (h₁ : r₁ ∈ extract_job_items cs₁) (h₂ : r₂ ∈ extract_job_items cs₂) :
    (r₁.text = r₂.text ∧ r₁.href = r₂.href → r₁.id = r₂.id) ∧
    (r₁.id ≠ r₂.id → r₁.text ≠ r₂.text ∨ r₁.href ≠ r₂.href) := by
  have e₁ := extract_id cs₁ r₁ h₁
  have e₂ := extract_id cs₂ r₂ h₂
  constructor
  · rintro ⟨ht, hh⟩
    rw [e₁, e₂, ht, hh]
  · intro hne
    by_contra hcon
    push_neg at hcon
    exact hne (by rw [e₁, e₂, hcon.1, hcon.2])

/-- Claim C3 witness: two cards whose normalized texts and hrefs agree
(the second has a leading space collapsed away) produce records with equal
dedupe identities. -/
theorem dedupe_identity_spec_w :
    (JobRecord.mk ['A'] none (jobId ['A'] none)).id =
      (JobRecord.mk ['A'] none (jobId ['A'] none)).id :=
  (dedupe_identity_spec
    [{ textContent := some ['A'], linkHref := none, extractionFails := false }]
    [{ textContent := some [' ', 'A'], linkHref := none, extractionFails := false }]
    (JobRecord.mk ['A'] none (jobId ['A'] none))
    (JobRecord.mk ['A'] none (jobId ['A'] none))
    (by decide) (by decide)).1 ⟨rfl, rfl⟩

/-- Claim C3 counterexample: two elements whose normalized texts differ
(capital A versus lowercase a, same absent href) nevertheless receive the
same dedupe identity, because the identity lowercases the text. -/
theorem dedupe_identity_ce :
    (extract_job_items
        [{ textContent := some ['A'], linkHref := none, extractionFails := false }]).map
        (fun r => r.id) =
      (extract_job_items
        [{ textContent := some ['a'], linkHref := none, extractionFails := false }]).map
        (fun r => r.id) ∧
    (extract_job_items
        [{ textContent := some ['A'], linkHref := none, extractionFails := false }]).map
        (fun r => r.text) ≠
      (extract_job_items
        [{ textContent := some ['a'], linkHref := none, extractionFails := false }]).map
        (fun r => r.text) := by
  decide

lemma probeSelector_eq (query : Selector → List Elem) (sel : Selector) :
    probeSelector query sel =
      if selectorAccepts query sel then some sel else none := by
  unfold probeSelector selectorAccepts
  rcases h : query sel with _ | ⟨a, l⟩
  · simp
  · by_cases h1 : 1 ≤ ((a :: l).take 8).countP elemGood <;> simp [h1]

lemma findSome?_probe (query : Selector → List Elem) (l : List Selector) :
    l.findSome? (probeSelector query) =
      l.find? (fun sel => selectorAccepts query sel) := by
  induction l with
  | nil => rfl
  | cons a l ih =>
    rw [List.findSome?_cons, List.find?_cons, probeSelector_eq]
    by_cases h : selectorAccepts query a = true
    · simp [h]
    · simp [Bool.eq_false_iff.mpr h, ih]

/-- Claim C4: the prober returns the first candidate, in the priority order
of JOB_CARD_SELECTORS, that matches at least one element and has at least 1
qualifying element (normalized text of length at least 5 and a descendant
link) among the first 8 matches; none when no candidate qualifies. In the
concrete scenario where the first three candidates match nothing and the
fourth matches ten elements of which three qualify, the fourth candidate is
returned. -/
theorem pick_selector_spec :
    (∀ query : Selector → List Elem,
      pick_working_job_selector query =
        JOB_CARD_SELECTORS.find? (fun sel => selectorAccepts query sel) ∧
      (pick_working_job_selector query = none ↔
        ∀ sel ∈ JOB_CARD_SELECTORS, selectorAccepts query sel = false)) ∧
    pick_working_job_selector probeExampleQuery = some Selector.divClassTile := by
  constructor
  · intro query
    have h := findSome?_probe query JOB_CARD_SELECTORS
    refine ⟨h, ?_⟩
    rw [pick_working_job_selector, h]
    simp [List.find?_eq_none]
  · decide

/-- Claim C4 witness: on a page where every candidate matches nothing, the
prober reports none found. -/
theorem pick_selector_spec_w :
    pick_working_job_selector (fun _ => []) = none :=
  (pick_selector_spec.1 (fun _ => [])).2.mpr (by decide)

/-- Claim C9: when probing reports none found, the watcher falls back to
the bare anchor selector, and with that selector in use the cap in
run_watcher bounds the extracted item list by 500 elements. -/
theorem fallback_cap_spec (query : Selector → List Elem)
    (items : List JobRecord)
    (hnone : pick_working_job_selector query = none) :
    fallbackSelector (pick_working_job_selector query) = Selector.anchorAll ∧
    (capItems (fallbackSelector (pick_working_job_selector query))
      items).length ≤ 500 := by
  rw [hnone]
  refine ⟨rfl, ?_⟩
  unfold capItems fallbackSelector
  by_cases h : 500 < items.length
  · rw [if_pos ⟨rfl, h⟩, List.length_take]
    exact min_le_left _ _
  · rw [if_neg (fun hc => h hc.2)]
    omega

/-- Claim C9 witness: a page with no matching elements yields the anchor
fallback, and the empty item list is within the cap. -/
theorem fallback_cap_spec_w :
    fallbackSelector (pick_working_job_selector (fun _ => [])) =
      Selector.anchorAll ∧
    (capItems (fallbackSelector (pick_working_job_selector (fun _ => [])))
      []).length ≤ 500 :=
  fallback_cap_spec (fun _ => []) [] (by decide)

lemma runBackoff_bound (outs : List Bool) :
    ∀ b : Nat, b ≤ 120 →
      (∀ w ∈ (runBackoff b outs).1, w ≤ 120) ∧ (runBackoff b outs).2 ≤ 120 := by
  induction outs with
  | nil =>
    intro b hb
    exact ⟨by simp [runBackoff], by simpa [runBackoff] using hb⟩
  | cons ok rest ih =>
    intro b hb
    cases ok with
    | true =>
      have h5 : backoffInit ≤ 120 := by norm_num [backoffInit]
      have := ih backoffInit h5
      exact ⟨by simpa [runBackoff] using this.1, by simpa [runBackoff] using this.2⟩
    | false =>
      have hnext : backoffNext b ≤ 120 := min_le_right _ _
      have := ih (backoffNext b) hnext
      constructor
      · intro w hw
        simp [runBackoff] at hw
        rcases hw with h | h
        · omega
        · exact this.1 w h
      · simpa [runBackoff] using this.2

lemma runBackoff_reset (outs : List Bool) :
    ∀ b : Nat, (runBackoff b (outs ++ [true])).2 = backoffInit := by
  induction outs with
  | nil => intro b; simp [runBackoff]
  | cons ok rest ih =>
    intro b
    cases ok with
    | true => simpa [runBackoff] using ih backoffInit
    | false => simpa [runBackoff] using ih (backoffNext b)

/-- Claim C5: an error cycle sleeps the current backoff and doubles it with
a 120-second ceiling, starting from 5 seconds, so three consecutive errors
wait 5, 10 and 20 seconds; every cooldown wait of any outcome sequence is
at most 120 seconds; the backoff resets to 5 after any error-free cycle;
and one error cycle at backoff b waits exactly b and continues with
min (b * 2) 120. -/
theorem backoff_spec :
    (runBackoff backoffInit [false, false, false]).1 = [5, 10, 20] ∧
    (∀ outs : List Bool, ∀ w ∈ (runBackoff backoffInit outs).1, w ≤ 120) ∧
    (∀ (b : Nat) (outs : List Bool),
      (runBackoff b (outs ++ [true])).2 = backoffInit) ∧
    (∀ (b : Nat) (outs : List Bool),
      runBackoff b (false :: outs) =
        (b :: (runBackoff (min (b * 2) 120) outs).1,
          (runBackoff (min (b * 2) 120) outs).2)) := by
  refine ⟨by decide, ?_, ?_, ?_⟩
  · intro outs w hw
    exact (runBackoff_bound outs backoffInit (by norm_num [backoffInit])).1 w hw
  · intro b outs
    exact runBackoff_reset outs b
  · intro b outs
    rfl

/-- Claim C5 witness: the first cooldown wait of a failing run is within
the ceiling, and a run ending in an error-free cycle is back at the
5-second base. -/
theorem backoff_spec_w :
    (5 : Nat) ≤ 120 ∧ (runBackoff 80 ([false] ++ [true])).2 = backoffInit :=
  ⟨backoff_spec.2.1 [false] 5 (by decide), backoff_spec.2.2.1 80 [false]⟩

/-- Claim C8: after a scan cycle the seen-identity set contains everything
it contained before together with the identity of every extracted item, and
the candidate set examined by the matcher is the list of newly seen items
when that list is non-empty and the full extracted list otherwise. -/
theorem seen_set_cycle (seen : List (List Char)) (items : List JobRecord) :
    (∀ x ∈ seen, x ∈ updateSeen seen items) ∧
    (∀ it ∈ items, it.id ∈ updateSeen seen items) ∧
    (newItems seen items ≠ [] →
      candidateSet seen items = newItems seen items) ∧
    (newItems seen items = [] → candidateSet seen items = items) := by
  refine ⟨?_, ?_, ?_, ?_⟩
  · intro x hx
    exact List.mem_append_left _ hx
  · intro it hit
    by_cases h : it.id ∈ seen
    · exact List.mem_append_left _ h
    · apply List.mem_append_right
      have hmem : it ∈ newItems seen items := by
        rw [newItems, List.mem_filter]
        exact ⟨hit, by simpa using h⟩
      exact List.mem_map_of_mem _ hmem
  · intro h
    rw [candidateSet, if_neg (by simpa [List.isEmpty_iff] using h)]
  · intro h
    rw [candidateSet, if_pos (by simpa [List.isEmpty_iff] using h)]

/-- Claim C8 witness: with an empty seen set and one extracted record, the
candidate set is exactly the new-item list. -/
theorem seen_set_cycle_w :
    candidateSet [] [pickerRecord] = newItems [] [pickerRecord] :=
  (seen_set_cycle [] [pickerRecord]).2.2.1 (by decide)

/-- Claim C10: a record with empty normalized text is skipped by the
candidate loop — removing it from the candidate list changes neither the
event trace nor the outcome — although text_matches on the empty text with
empty keyword lists is true, so the keyword matcher alone would accept
it. -/
theorem empty_text_skipped (cfg : WatchCfg) (oracle : JobRecord → ItemOracle)
    (pre post : List JobRecord) (it : JobRecord) (h : it.text = []) :
    processCandidates cfg oracle (pre ++ it :: post) =
      processCandidates cfg oracle (pre ++ post) ∧
    text_matches [] [] [] = true := by
  refine ⟨?_, rfl⟩
  induction pre with
  | nil =>
    have hstep : stepCandidate cfg (oracle it) it = ([], false) := by
      simp [stepCandidate, h]
    simp [processCandidates, hstep]
  | cons a l ih =>
    simp only [List.cons_append, processCandidates, List.append_eq]
    rw [ih]

/-- Claim C10 witness: a concrete empty-text record is skipped by the loop
in the dry-run configuration. -/
theorem empty_text_skipped_w :
    processCandidates dryCfg (fun _ => trivialItemOracle)
        ([] ++ emptyTextRecord :: []) =
      processCandidates dryCfg (fun _ => trivialItemOracle) ([] ++ []) ∧
    text_matches [] [] [] = true :=
  empty_text_skipped dryCfg (fun _ => trivialItemOracle) [] [] emptyTextRecord
    rfl

lemma stepCandidate_skip (cfg : WatchCfg) (o : ItemOracle) (x : JobRecord)
    (h : x.text = [] ∨
      text_matches x.text cfg.include_keywords cfg.exclude_keywords = false) :
    stepCandidate cfg o x = ([], false) := by
  rcases h with h | h
  · simp [stepCandidate, h]
  · by_cases he : x.text.isEmpty
    · simp [stepCandidate, he]
    · simp [stepCandidate, he, h]

/-- Claim C6 (amended): in dry-run mode with keep-running off, the watch
loop terminates successfully on the first candidate with non-empty text
that passes the keyword matcher (empty-text records are skipped even when
the matcher would accept them), no click operation is ever performed, and
the candidates after that record are never examined. -/
theorem dry_run_no_click (cfg : WatchCfg) (oracle : JobRecord → ItemOracle)
    (pre post : List JobRecord) (it : JobRecord)
    (hdry : cfg.dry_run = true) (hkeep : cfg.keep_running = false)
    (hpre : ∀ x ∈ pre, x.text = [] ∨
      text_matches x.text cfg.include_keywords cfg.exclude_keywords = false)
    (hne : it.text ≠ [])
    (hm : text_matches it.text cfg.include_keywords cfg.exclude_keywords = true) :
    (processCandidates cfg oracle (pre ++ it :: post)).2 = true ∧
    (∀ e ∈ (processCandidates cfg oracle (pre ++ it :: post)).1,
      isClickEv e = false) ∧
    processCandidates cfg oracle (pre ++ it :: post) =
      processCandidates cfg oracle (pre ++ [it]) := by
  revert hpre
  induction pre with
  | nil =>
    intro _
    have hie : it.text.isEmpty = false := by
      cases h : it.text with
      | nil => exact absurd h hne
      | cons a l => rfl
    cases hn : cfg.notify_on_match with
    | false =>
      have hstep : stepCandidate cfg (oracle it) it = ([], true) := by
        simp [stepCandidate, hie, hm, hdry, hkeep, hn]
      refine ⟨by simp [processCandidates, hstep], ?_,
        by simp [processCandidates, hstep]⟩
      intro e he
      simp [processCandidates, hstep] at he
    | true =>
      have hstep : stepCandidate cfg (oracle it) it = ([Ev.notifyEv], true) := by
        simp [stepCandidate, hie, hm, hdry, hkeep, hn]
      refine ⟨by simp [processCandidates, hstep], ?_,
        by simp [processCandidates, hstep]⟩
      intro e he
      simp [processCandidates, hstep] at he
      rw [he]
      rfl
  | cons a l ih =>
    intro hpre
    have hstep := stepCandidate_skip cfg (oracle a) a (hpre a (by simp))
    have ihl := ih fun x hx => hpre x (List.mem_cons_of_mem a hx)
    refine ⟨?_, ?_, ?_⟩
    · simpa [processCandidates, hstep] using ihl.1
    · intro e he
      simp only [List.cons_append, processCandidates, hstep] at he
      simp at he
      exact ihl.2.1 e he
    · simp only [List.cons_append, processCandidates, hstep, List.append_eq]
      rw [ihl.2.2]

/-- Claim C6 witness: a concrete dry run with one matching record
terminates with a click-free trace. -/
theorem dry_run_no_click_w :
    (processCandidates dryCfg (fun _ => trivialItemOracle)
      ([] ++ pickerRecord :: [])).2 = true ∧
    (∀ e ∈ (processCandidates dryCfg (fun _ => trivialItemOracle)
      ([] ++ pickerRecord :: [])).1, isClickEv e = false) ∧
    processCandidates dryCfg (fun _ => trivialItemOracle)
        ([] ++ pickerRecord :: []) =
      processCandidates dryCfg (fun _ => trivialItemOracle)
        ([] ++ [pickerRecord]) :=
  dry_run_no_click dryCfg (fun _ => trivialItemOracle) [] [] pickerRecord
    rfl rfl (by simp) (by decide) (by decide)

/-- Claim C6 counterexample: with empty keyword lists the first (and only)
candidate has empty text; its text passes the keyword matcher, yet the
dry-run loop with keep-running off does not terminate on it — the claim as
stated fails for records with empty normalized text. -/
theorem dry_run_no_click_ce :
    text_matches emptyTextRecord.text dryCfg.include_keywords
      dryCfg.exclude_keywords = true ∧
    (processCandidates dryCfg (fun _ => trivialItemOracle)
      [emptyTextRecord]).2 = false := by
  decide

lemma inCardChain_no_detail (o : CardOracle) (l : List Nat) :
    ∀ e ∈ (inCardChain o l).1, isDetailEv e = false := by
  induction l with
  | nil => intro e he; cases he
  | cons i rest ih =>
    intro e he
    by_cases hf : o.find i
    · by_cases hc : o.clickOk i
      · simp [inCardChain, hf, hc] at he
        rw [he]; rfl
      · simp [inCardChain, hf, hc] at he
        rcases he with he | he
        · rw [he]; rfl
        · exact ih e he
    · simp [inCardChain, hf] at he
      exact ih e he

lemma withinCard_events (o : CardOracle) (e : Ev)
    (he : e ∈ (try_click_apply_within_card o).1) :
    e ∈ (inCardChain o APPLY_WITHIN_CARD_SELECTORS).1 ∨
    e = Ev.cardRoleButtonClick ∨ e = Ev.cardRoleLinkClick := by
  unfold try_click_apply_within_card at he
  by_cases h2 : (inCardChain o APPLY_WITHIN_CARD_SELECTORS).2 <;>
    by_cases hb : o.roleButtonOk <;> by_cases hl : o.roleLinkOk <;>
      simp [h2, hb, hl] at he <;> tauto

lemma withinCard_no_detail (o : CardOracle) (e : Ev)
    (he : e ∈ (try_click_apply_within_card o).1) : isDetailEv e = false := by
  rcases withinCard_events o e he with h | h | h
  · exact inCardChain_no_detail o _ e h
  · rw [h]; rfl
  · rw [h]; rfl

lemma actOnItem_trace (cfg : WatchCfg) (o : ItemOracle) (it : JobRecord)
    (hfail : (try_click_apply_within_card o.card).2 = false) :
    ∃ t₂, (actOnItem cfg o it).1 =
      (try_click_apply_within_card o.card).1 ++
        (match it.href with
          | some h => if h.isEmpty then Ev.containerClick else Ev.gotoHref h
          | none => Ev.containerClick) :: t₂ := by
  refine ⟨(try_click_apply_on_detail o.detail).1 ++
    (if (try_click_apply_on_detail o.detail).2 then
      (if cfg.notify_on_match then [Ev.notifyEv] else []) ++
        (if cfg.keep_running then [Ev.wentBack] else [])
     else []), ?_⟩
  by_cases hd : (try_click_apply_on_detail o.detail).2 <;>
    by_cases hk : cfg.keep_running <;> by_cases hn : cfg.notify_on_match <;>
      simp [actOnItem, hfail, hd, hk, hn]

/-- Claim C7 (amended): acting on a matched record when every in-card apply
attempt has failed, the strategy navigates same-tab to the href of the
record when the record has a non-empty href — and clicks the container
element itself when the href is absent or the empty string, both falsy in
the source test — strictly before any detail-view apply query is
attempted. -/
theorem fallback_nav_order (cfg : WatchCfg) (o : ItemOracle) (it : JobRecord)
    (hfail : (try_click_apply_within_card o.card).2 = false) :
    (∀ h, it.href = some h → h ≠ [] →
      ∃ t₁ t₂, (actOnItem cfg o it).1 = t₁ ++ Ev.gotoHref h :: t₂ ∧
        ∀ e ∈ t₁, isDetailEv e = false) ∧
    (it.href = none ∨ it.href = some [] →
      ∃ t₁ t₂, (actOnItem cfg o it).1 = t₁ ++ Ev.containerClick :: t₂ ∧
        ∀ e ∈ t₁, isDetailEv e = false) := by
  obtain ⟨t₂, ht⟩ := actOnItem_trace cfg o it hfail
  constructor
  · intro h hh hne
    rw [hh] at ht
    cases h with
    | nil => exact absurd rfl hne
    | cons a l =>
      exact ⟨(try_click_apply_within_card o.card).1, t₂, ht,
        fun e he => withinCard_no_detail o.card e he⟩
  · intro hh
    rcases hh with hh | hh <;> rw [hh] at ht <;>
      exact ⟨(try_click_apply_within_card o.card).1, t₂, ht,
        fun e he => withinCard_no_detail o.card e he⟩

/-- Claim C7 witness: with an all-failing card and a record carrying a
non-empty href, the trace navigates to that href before any detail-view
query. -/
theorem fallback_nav_order_w :
    ∃ t₁ t₂, (actOnItem dryCfg trivialItemOracle hrefRecord).1 =
      t₁ ++ Ev.gotoHref ['u'] :: t₂ ∧ ∀ e ∈ t₁, isDetailEv e = false :=
  (fallback_nav_order dryCfg trivialItemOracle hrefRecord rfl).1 ['u'] rfl
    (by decide)

/-- Claim C7 counterexample: a record whose link carries an empty-string
href. The record has a href, every in-card apply attempt fails, yet the
strategy performs no same-tab navigation at all — the empty string is
falsy in the source test — and clicks the container element instead. -/
theorem fallback_nav_order_ce :
    emptyHrefRecord.href = some [] ∧
    (try_click_apply_within_card trivialItemOracle.card).2 = false ∧
    (actOnItem dryCfg trivialItemOracle emptyHrefRecord).1.all
      (fun e => !(isGotoEv e)) = true ∧
    Ev.containerClick ∈ (actOnItem dryCfg trivialItemOracle emptyHrefRecord).1 := by
  decide

end AmazonBot

